import Mathlib

/-!
Shallow embedding of the intent-identifier repository's classification
pipeline and HTTP boundary, and proofs of the frozen claims about it.

Modelled source files:
* `src/Working/intentAgent.js` — the `IntentAgent` pipeline
  (`processInput → identifyIntent → generateResponse`), its JSON
  extraction / regex fallback logic, and `classifyIntentFallback`;
* `src/unnamed/part_008` — the variant pipeline's `classifyIntentFallback`;
* `src/Frontend/server.js` — the `/api/classify` and `/api/classify-batch`
  request handlers.

Modelling conventions:
* JS strings are `List Char` (code points; the repository's validation and
  regexes only behave differently from UTF-16 units on astral-plane input,
  which no claim involves).
* JS runtime values flowing through the dynamically typed state are `JVal`;
  `JVal.jnan` models the number `NaN` (producible by `parseFloat`, never by
  `JSON.parse`). `Option JVal` models a possibly-`undefined` value, with
  `none` for `undefined` (e.g. a missing object property).
* Numbers are exact rationals. Every number the pipeline manipulates is
  parsed from decimal text, so this differs from IEEE doubles only by
  rounding that no claim depends on.
* The two LLM calls' outcomes are parameters (`Except err reply`), since
  the code treats the model as an opaque `invoke` that returns text or
  throws.
-/

/-- An exact finite decimal `man * 10 ^ exp`, the shape of every number this
program can hold: `JSON.parse` and `parseFloat` only ever produce values
written in (signed) decimal positional notation. Values built by `decMake`
are canonical — the mantissa is never a nonzero multiple of ten and zero is
`⟨0, 0⟩` — so two equal decimals are structurally equal. (This differs from
IEEE doubles only by the rounding of long mantissas, which no claim
exercises.) -/
structure Dec where
  man : Int
  exp : Int
deriving DecidableEq

/-- Canonicalize a mantissa/exponent pair by shifting factors of ten from
the mantissa into the exponent. The fuel `m.natAbs` bounds the number of
shifts. -/
def decNormAux : Nat → Int → Int → Dec
  | 0, m, e => { man := m, exp := e }
  | fuel + 1, m, e =>
    if m = 0 then { man := 0, exp := 0 }
    else if m % 10 = 0 then decNormAux fuel (m / 10) (e + 1)
    else { man := m, exp := e }

/-- The canonical decimal with value `m * 10 ^ e`. -/
def decMake (m e : Int) : Dec := decNormAux m.natAbs m e

/-- The rational value of a decimal (for specification-level statements
only; the executable pipeline never needs it). -/
def decToRat (d : Dec) : ℚ := (d.man : ℚ) * 10 ^ d.exp

/-- A JavaScript runtime value (JSON values plus `NaN`). `undefined` is
represented one level up, by `Option JVal`. -/
inductive JVal where
  | jnull
  | jnan
  | jbool (b : Bool)
  | jnum (d : Dec)
  | jstr (s : List Char)
  | jarr (xs : List JVal)
  | jobj (fields : List (List Char × JVal))

/-- Truthiness of a JS value (`undefined` handled by callers):
`null`, `NaN`, `false`, `0`, and `""` are falsy; everything else truthy. -/
def jvFalsy : JVal → Bool
  | JVal.jnull => true
  | JVal.jnan => true
  | JVal.jbool b => !b
  | JVal.jnum d => if d.man = 0 then true else false
  | JVal.jstr s => s.isEmpty
  | JVal.jarr _ => false
  | JVal.jobj _ => false

/-- `a || b` on a possibly-undefined JS value `a`: the default `b` is taken
when `a` is `undefined` or falsy. -/
def jsOr (a : Option JVal) (b : JVal) : JVal :=
  match a with
  | none => b
  | some v => if jvFalsy v then b else v

/-- JS property read on a parsed JSON object: with duplicate keys the last
occurrence wins (later object-literal assignments overwrite earlier ones);
an absent key reads as `undefined` (`none`). -/
def jsLookup (fields : List (List Char × JVal)) (key : List Char) : Option JVal :=
  fields.foldl (fun acc kv => if kv.1 = key then some kv.2 else acc) none

/-- Drop an expected literal from the head of the input, or fail. -/
def dropLit : List Char → List Char → Option (List Char)
  | [], cs => some cs
  | _, [] => none
  | l :: ls, c :: cs => if l = c then dropLit ls cs else none

/-- `lit` is a leading segment of `cs`. -/
def litStartsWith : List Char → List Char → Bool
  | [], _ => true
  | _, [] => false
  | l :: ls, c :: cs => l = c && litStartsWith ls cs

/-- `lit` occurs contiguously somewhere in `cs` (JS `String.includes` /
an unanchored literal regex test). -/
def litContains (cs lit : List Char) : Bool :=
  match cs with
  | [] => lit.isEmpty
  | _ :: t => litStartsWith lit cs || litContains t lit

/-- The character class of the regex `\s` (ECMAScript WhiteSpace and
LineTerminator), also the set trimmed by `String.prototype.trim`. -/
def jsWsChar (c : Char) : Bool :=
  let n := c.toNat
  n == 0x20 || n == 0x09 || n == 0x0a || n == 0x0d || n == 0x0b || n == 0x0c ||
  n == 0xa0 || n == 0x1680 || (decide (0x2000 ≤ n) && decide (n ≤ 0x200a)) ||
  n == 0x2028 || n == 0x2029 || n == 0x202f || n == 0x205f || n == 0x3000 || n == 0xfeff

/-- JS `String.prototype.trim`. -/
def trimJs (cs : List Char) : List Char :=
  ((cs.dropWhile jsWsChar).reverse.dropWhile jsWsChar).reverse

/-- The shortest segment of `cs` running through the first `\x7d`, if any
(helper for the lazy brace match). -/
def throughClose : List Char → Option (List Char)
  | [] => none
  | c :: rest => if c = '\x7d' then some [c] else (throughClose rest).map (c :: ·)

/-- First match of the lazy regex `\x7b[\s\S]*?\x7d` (intentAgent.js line 121):
from the first opening brace through the first closing brace after it.
If the first opening brace has no closing brace after it, no later opening
brace has one either, so the whole match fails. -/
def firstBraceSpan : List Char → Option (List Char)
  | [] => none
  | c :: rest => if c = '\x7b' then (throughClose rest).map (c :: ·) else firstBraceSpan rest

/-- The longest segment of `cs` that ends with a `\x7d`, if any (helper for
the greedy brace match). -/
def upToLastClose : List Char → Option (List Char)
  | [] => none
  | c :: rest =>
    match upToLastClose rest with
    | some t => some (c :: t)
    | none => if c = '\x7d' then some [c] else none

/-- First match of the greedy regex `\x7b[\s\S]*\x7d` (intentAgent.js line 244):
from the first opening brace through the last closing brace after it. -/
def greedyBraceSpan : List Char → Option (List Char)
  | [] => none
  | c :: rest => if c = '\x7b' then (upToLastClose rest).map (c :: ·) else greedyBraceSpan rest

/-- A control character per the cleanup regex `[\u0000-\u001F\u007F-\u009F]`. -/
def isCtrlChar (c : Char) : Bool :=
  c.toNat ≤ 0x1f || (decide (0x7f ≤ c.toNat) && decide (c.toNat ≤ 0x9f))

/-- One pass of the global replace `,(\s*[\x7d\]])` → `$1` (drop a comma that
precedes only whitespace and a closing brace/bracket), with fuel for
termination; scanning resumes after each replaced segment, as a JS global
replace does. -/
def stripTrailingCommasFuel : Nat → List Char → List Char
  | 0, cs => cs
  | _ + 1, [] => []
  | fuel + 1, c :: rest =>
    if c = ',' then
      let ws := rest.takeWhile jsWsChar
      match rest.dropWhile jsWsChar with
      | b :: rem =>
        if b = '\x7d' ∨ b = ']' then ws ++ b :: stripTrailingCommasFuel fuel rem
        else c :: stripTrailingCommasFuel fuel rest
      | [] => c :: stripTrailingCommasFuel fuel rest
    else c :: stripTrailingCommasFuel fuel rest

/-- The trailing-comma removal step of the cleanup chain. The fuel
`cs.length` suffices: every recursive call consumes at least one character. -/
def stripTrailingCommas (cs : List Char) : List Char :=
  stripTrailingCommasFuel cs.length cs

/-- The cleanup chain of `identifyIntent` (intentAgent.js lines 129-134):
remove control characters, drop trailing commas, replace newlines by spaces,
remove carriage returns, trim. (The newline and carriage-return steps are
no-ops there, because the control-character step has already removed both.) -/
def cleanupJson (cs : List Char) : List Char :=
  trimJs (((stripTrailingCommas (cs.filter (fun c => !isCtrlChar c))).map
    (fun c => if c = '\n' then ' ' else c)).filter (fun c => c ≠ '\r'))

/-- The shorter cleanup chain of `generateResponse` (lines 247-250): remove
control characters, drop trailing commas, trim. -/
def cleanupReasoning (cs : List Char) : List Char :=
  trimJs (stripTrailingCommas (cs.filter (fun c => !isCtrlChar c)))

/-- JSON whitespace (RFC 8259: space, tab, line feed, carriage return). -/
def jsonWsChar (c : Char) : Bool :=
  c == ' ' || c == '\t' || c == '\n' || c == '\r'

/-- Skip JSON whitespace. -/
def skipJWs (cs : List Char) : List Char := cs.dropWhile jsonWsChar

/-- Value of a hexadecimal digit. -/
def hexDigitVal (c : Char) : Option Nat :=
  if '0' ≤ c ∧ c ≤ '9' then some (c.toNat - '0'.toNat)
  else if 'a' ≤ c ∧ c ≤ 'f' then some (c.toNat - 'a'.toNat + 10)
  else if 'A' ≤ c ∧ c ≤ 'F' then some (c.toNat - 'A'.toNat + 10)
  else none

/-- The character for a two-character JSON escape sequence; `none` when the
escape is not one of the eight JSON simple escapes (strict `JSON.parse`
rejects any other). -/
def jsonSimpleEscape : Char → Option Char
  | '"' => some '"'
  | '\\' => some '\\'
  | '/' => some '/'
  | 'b' => some (Char.ofNat 0x08)
  | 'f' => some (Char.ofNat 0x0c)
  | 'n' => some '\n'
  | 'r' => some '\r'
  | 't' => some '\t'
  | _ => none

/-- Parse the body of a JSON string after its opening quote, returning the
decoded characters and the remaining input. Strict `JSON.parse` string rules:
raw control characters below `U+0020` are rejected, escapes are limited to
the JSON set, `\uXXXX` takes exactly four hex digits. (A `\uXXXX` escape
denoting a lone UTF-16 surrogate has no `Char` counterpart; `Char.ofNat`
maps it to `U+0000`. No claim involves such input.) -/
def parseJsonStrBody : List Char → Option (List Char × List Char)
  | [] => none
  | '"' :: rest => some ([], rest)
  | '\\' :: 'u' :: h1 :: h2 :: h3 :: h4 :: rest => do
    let v1 ← hexDigitVal h1
    let v2 ← hexDigitVal h2
    let v3 ← hexDigitVal h3
    let v4 ← hexDigitVal h4
    let (s, rem) ← parseJsonStrBody rest
    pure (Char.ofNat (((v1 * 16 + v2) * 16 + v3) * 16 + v4) :: s, rem)
  | '\\' :: e :: rest => do
    let c ← jsonSimpleEscape e
    let (s, rem) ← parseJsonStrBody rest
    pure (c :: s, rem)
  | c :: rest =>
    if c.toNat < 0x20 then none
    else do
      let (s, rem) ← parseJsonStrBody rest
      pure (c :: s, rem)

/-- Numeric value of a digit string. -/
def digitsVal (ds : List Char) : Nat :=
  ds.foldl (fun acc c => acc * 10 + (c.toNat - '0'.toNat)) 0

/-- Parse a JSON number (RFC 8259 grammar: `-? (0 | [1-9][0-9]*) frac? exp?`;
a leading zero is its own token, a fraction or exponent part requires at
least one digit). Returns the exact rational and the remaining input. -/
def parseJsonNum (cs : List Char) : Option (Dec × List Char) :=
  let (neg, cs1) := match cs with
    | '-' :: t => (true, t)
    | _ => (false, cs)
  match cs1 with
  | [] => none
  | d :: tail =>
    if !d.isDigit then none
    else
      let (intDs, r1) :=
        if d = '0' then ([d], tail)
        else (cs1.takeWhile Char.isDigit, cs1.dropWhile Char.isDigit)
      let fracStep : Option (List Char × List Char) :=
        match r1 with
        | '.' :: r2 =>
          let fds := r2.takeWhile Char.isDigit
          if fds.isEmpty then none
          else some (fds, r2.dropWhile Char.isDigit)
        | _ => some ([], r1)
      match fracStep with
      | none => none
      | some (fds, r3) =>
        let expStep : Option (ℤ × List Char) :=
          match r3 with
          | e :: r4 =>
            if e = 'e' ∨ e = 'E' then
              let (sgn, r5) : ℤ × List Char :=
                match r4 with
                | '+' :: t => (1, t)
                | '-' :: t => (-1, t)
                | _ => (1, r4)
              let eds := r5.takeWhile Char.isDigit
              if eds.isEmpty then none
              else some (sgn * (digitsVal eds : ℤ), r5.dropWhile Char.isDigit)
            else some (0, r3)
          | [] => some (0, r3)
        match expStep with
        | none => none
        | some (expV, r6) =>
          let mant : ℤ := (if neg then -1 else 1) * (digitsVal (intDs ++ fds) : ℤ)
          some (decMake mant (expV - fds.length), r6)

mutual

/-- Parse one JSON value (strict `JSON.parse` grammar), returning it and the
remaining input. Structural on the fuel; `parseJsonTop` supplies enough fuel
that exhaustion is unreachable, since every fuel step consumes input. -/
def parseJsonVal : Nat → List Char → Option (JVal × List Char)
  | 0, _ => none
  | fuel + 1, cs =>
    match skipJWs cs with
    | [] => none
    | c :: rest =>
      if c = '\x7b' then
        match skipJWs rest with
        | '\x7d' :: r2 => some (JVal.jobj [], r2)
        | r2 => do
          let (fs, rem) ← parseJsonMembers fuel r2
          pure (JVal.jobj fs, rem)
      else if c = '[' then
        match skipJWs rest with
        | ']' :: r2 => some (JVal.jarr [], r2)
        | r2 => do
          let (xs, rem) ← parseJsonElems fuel r2
          pure (JVal.jarr xs, rem)
      else if c = '"' then do
        let (s, rem) ← parseJsonStrBody rest
        pure (JVal.jstr s, rem)
      else if c = 't' then (dropLit ("rue".data) rest).map (fun r => (JVal.jbool true, r))
      else if c = 'f' then (dropLit ("alse".data) rest).map (fun r => (JVal.jbool false, r))
      else if c = 'n' then (dropLit ("ull".data) rest).map (fun r => (JVal.jnull, r))
      else (parseJsonNum (c :: rest)).map (fun p => (JVal.jnum p.1, p.2))

/-- Parse the members of a nonempty JSON object, up to and including the
closing brace. -/
def parseJsonMembers : Nat → List Char → Option (List (List Char × JVal) × List Char)
  | 0, _ => none
  | fuel + 1, cs =>
    match skipJWs cs with
    | '"' :: rest => do
      let (k, r1) ← parseJsonStrBody rest
      match skipJWs r1 with
      | ':' :: r2 => do
        let (v, r3) ← parseJsonVal fuel r2
        match skipJWs r3 with
        | ',' :: r4 => do
          let (fs, r5) ← parseJsonMembers fuel r4
          pure ((k, v) :: fs, r5)
        | '\x7d' :: r4 => pure ([(k, v)], r4)
        | _ => none
      | _ => none
    | _ => none

/-- Parse the elements of a nonempty JSON array, up to and including the
closing bracket. -/
def parseJsonElems : Nat → List Char → Option (List JVal × List Char)
  | 0, _ => none
  | fuel + 1, cs => do
    let (v, r1) ← parseJsonVal fuel cs
    match skipJWs r1 with
    | ',' :: r2 => do
      let (xs, r3) ← parseJsonElems fuel r2
      pure (v :: xs, r3)
    | ']' :: r2 => pure ([v], r2)
    | _ => none

end

/-- `JSON.parse`: a single JSON value with only whitespace around it, or
failure (`none` stands for the thrown `SyntaxError`). -/
def jsonParse (cs : List Char) : Option JVal :=
  match parseJsonVal (cs.length + 1) cs with
  | some (v, rem) => if (skipJWs rem).isEmpty then some v else none
  | none => none

/-- `JSON.parse` outcomes as seen by `identifyIntent`: the input handed to it
always begins with an opening brace (it is a cleaned `\x7b...\x7d` span, and no
cleanup step removes the leading brace), so a successful strict parse is
necessarily an object; this projection returns its fields. -/
def parseObjOpt (cs : List Char) : Option (List (List Char × JVal)) :=
  match jsonParse cs with
  | some (JVal.jobj fs) => some fs
  | _ => none

/-- Attempt the regex `"intent"\s*:\s*"([^"]+)"` anchored at the head of the
input; returns the capture group. The greedy `[^"]+` stops at the next quote,
which must exist and must not come immediately (the class requires at least
one character). -/
def intentCapAt (cs : List Char) : Option (List Char) := do
  let r1 ← dropLit ('"' :: ("intent".data) ++ ['"']) cs
  let r2 := r1.dropWhile jsWsChar
  let r3 ← dropLit [':'] r2
  let r4 := r3.dropWhile jsWsChar
  let r5 ← dropLit ['"'] r4
  let cap := r5.takeWhile (fun c => c ≠ '"')
  if cap.isEmpty then none
  else
    match r5.dropWhile (fun c => c ≠ '"') with
    | '"' :: _ => some cap
    | _ => none

/-- A character of the regex class `[\d.]`. -/
def isDigitDot (c : Char) : Bool := c.isDigit || c = '.'

/-- Attempt the regex `"confidence"\s*:\s*([\d.]+)` anchored at the head of
the input; returns the capture group. -/
def confCapAt (cs : List Char) : Option (List Char) := do
  let r1 ← dropLit ('"' :: ("confidence".data) ++ ['"']) cs
  let r2 := r1.dropWhile jsWsChar
  let r3 ← dropLit [':'] r2
  let r4 := r3.dropWhile jsWsChar
  let cap := r4.takeWhile isDigitDot
  if cap.isEmpty then none else some cap

/-- Leftmost match of an anchored matcher: JS `String.match` tries each start
position from the left and returns the first success. -/
def scanLeftmost (tryAt : List Char → Option (List Char)) : List Char → Option (List Char)
  | [] => tryAt []
  | c :: rest =>
    match tryAt (c :: rest) with
    | some cap => some cap
    | none => scanLeftmost tryAt rest

/-- First capture of `/"intent"\s*:\s*"([^"]+)"/` in the reply
(intentAgent.js lines 142, 145). -/
def scanIntentCap (cs : List Char) : Option (List Char) := scanLeftmost intentCapAt cs

/-- First capture of `/"confidence"\s*:\s*([\d.]+)/` in the reply
(lines 143, 146). -/
def scanConfCap (cs : List Char) : Option (List Char) := scanLeftmost confCapAt cs

/-- `parseFloat` restricted to the strings that can reach it here: nonempty
captures of `[\d.]+`. It takes the longest valid decimal-literal leading
segment (`digits`, `digits.digits?`, or `.digits`); a capture with no such
leading segment (`"."`, `".."`, ...) yields `NaN`. (Full `parseFloat` also
accepts signs, exponents and `Infinity`, none of which can appear in a
`[\d.]+` capture.) -/
def parseFloatCap (cs : List Char) : JVal :=
  match cs with
  | [] => JVal.jnan
  | '.' :: rest =>
    let ds := rest.takeWhile Char.isDigit
    if ds.isEmpty then JVal.jnan
    else JVal.jnum (decMake (digitsVal ds : ℤ) (-(ds.length : ℤ)))
  | c :: _ =>
    if c.isDigit then
      let ip := cs.takeWhile Char.isDigit
      match cs.dropWhile Char.isDigit with
      | '.' :: r2 =>
        let fds := r2.takeWhile Char.isDigit
        JVal.jnum (decMake (digitsVal (ip ++ fds) : ℤ) (-(fds.length : ℤ)))
      | _ => JVal.jnum (decMake (digitsVal ip : ℤ) 0)
    else JVal.jnan

/-- JS `toLowerCase` on the ASCII range (the fallback patterns and every
input a claim evaluates are ASCII). -/
def lowerStr (cs : List Char) : List Char := cs.map Char.toLower

/-- Test of `/^(hi|hello|hey|greetings|good morning|good afternoon)/i`
against the already-lowercased input (intentAgent.js line 179). -/
def greetingTest (low : List Char) : Bool :=
  [("hi".data), ("hello".data), ("hey".data), ("greetings".data),
   ("good morning".data), ("good afternoon".data)].any (fun p => litStartsWith p low)

/-- Test of `/(what|when|where|why|how|who|which)/i` together with
`includes("?")` (line 182). -/
def questionTest (low : List Char) : Bool :=
  ([("what".data), ("when".data), ("where".data), ("why".data), ("how".data),
    ("who".data), ("which".data)].any (fun p => litContains low p)) && litContains low ['?']

/-- Test of `/(please|could you|can you|would you|schedule|book|create|add)/i`
(line 185). -/
def commandTest (low : List Char) : Bool :=
  [("please".data), ("could you".data), ("can you".data), ("would you".data),
   ("schedule".data), ("book".data), ("create".data), ("add".data)].any
    (fun p => litContains low p)

/-- Test of `/(thanks|thank you|appreciate|grateful|bye|goodbye|see you)/i`
(line 188). -/
def goodbyeTest (low : List Char) : Bool :=
  [("thanks".data), ("thank you".data), ("appreciate".data), ("grateful".data),
   ("bye".data), ("goodbye".data), ("see you".data)].any (fun p => litContains low p)

/-- Test of `/(help|assist|support|clarify|explain)/i` (line 191). -/
def clarificationTest (low : List Char) : Bool :=
  [("help".data), ("assist".data), ("support".data), ("clarify".data),
   ("explain".data)].any (fun p => litContains low p)

/-- Test of `/(tell me|what is|what are|show me|give me)/i` (line 194). -/
def infoRequestTest (low : List Char) : Bool :=
  [("tell me".data), ("what is".data), ("what are".data), ("show me".data),
   ("give me".data)].any (fun p => litContains low p)

/-- `classifyIntentFallback` of `src/Working/intentAgent.js` (lines 175-199):
lowercase the input, then test the six patterns in source order, returning
the label of the first that matches, `"unknown"` otherwise. -/
def classifyIntentFallback (input : List Char) : List Char :=
  let low := lowerStr input
  if greetingTest low then "greeting".data
  else if questionTest low then "question".data
  else if commandTest low then "command".data
  else if goodbyeTest low then "goodbye".data
  else if clarificationTest low then "clarification".data
  else if infoRequestTest low then "information_request".data
  else "unknown".data

/-- `classifyIntentFallback` of the variant pipeline `src/unnamed/part_008`
(lines 162-186), embedded separately from its own source text. -/
def classifyIntentFallbackVariant (input : List Char) : List Char :=
  let low := lowerStr input
  if [("hi".data), ("hello".data), ("hey".data), ("greetings".data),
      ("good morning".data), ("good afternoon".data)].any (fun p => litStartsWith p low) then
    "greeting".data
  else if ([("what".data), ("when".data), ("where".data), ("why".data), ("how".data),
            ("who".data), ("which".data)].any (fun p => litContains low p))
          && litContains low ['?'] then
    "question".data
  else if [("please".data), ("could you".data), ("can you".data), ("would you".data),
           ("schedule".data), ("book".data), ("create".data), ("add".data)].any
            (fun p => litContains low p) then
    "command".data
  else if [("thanks".data), ("thank you".data), ("appreciate".data), ("grateful".data),
           ("bye".data), ("goodbye".data), ("see you".data)].any (fun p => litContains low p) then
    "goodbye".data
  else if [("help".data), ("assist".data), ("support".data), ("clarify".data),
           ("explain".data)].any (fun p => litContains low p) then
    "clarification".data
  else if [("tell me".data), ("what is".data), ("what are".data), ("show me".data),
           ("give me".data)].any (fun p => litContains low p) then
    "information_request".data
  else "unknown".data

/-- Modelled from the spec: the fallback classifier described as "a static
ordered set of regex classifiers (greeting/question/command/goodbye/
clarification/information_request patterns checked in fixed priority order,
first match wins)", with `"unknown"` when none match. Stated as an explicit
ordered rule list for comparison with the code's `if` cascade. -/
def fallbackRules : List ((List Char → Bool) × List Char) :=
  [(greetingTest, "greeting".data),
   (questionTest, "question".data),
   (commandTest, "command".data),
   (goodbyeTest, "goodbye".data),
   (clarificationTest, "clarification".data),
   (infoRequestTest, "information_request".data)]

/-- Modelled from the spec: first-match-wins evaluation of `fallbackRules`. -/
def fallbackSpecOrder (input : List Char) : List Char :=
  match fallbackRules.find? (fun r => r.1 (lowerStr input)) with
  | some r => r.2
  | none => "unknown".data

/-- Decimal digits of a natural number. -/
def natDigits (n : Nat) : List Char := Nat.toDigits 10 n

/-- Decimal rendering of a nonnegative canonical mantissa/exponent pair:
append zeros for a nonnegative exponent, otherwise set a decimal point
`-exp` digits from the right. On canonical values this agrees with the
shortest-round-trip `Number`-to-string conversion of JS (which switches to
exponential notation only beyond `1e21` / below `1e-6`; no claim inspects a
rendering at all). -/
def decToStrNat (m : Nat) (e : Int) : List Char :=
  if 0 ≤ e then natDigits m ++ List.replicate e.toNat '0'
  else
    let k := (-e).toNat
    let ds := natDigits m
    if ds.length ≤ k then '0' :: '.' :: (List.replicate (k - ds.length) '0' ++ ds)
    else ds.take (ds.length - k) ++ '.' :: ds.drop (ds.length - k)

/-- JS number-to-string conversion (sign plus `decToStrNat`). -/
def decToStr (d : Dec) : List Char :=
  if d.man < 0 then '-' :: decToStrNat (-d.man).toNat d.exp else decToStrNat d.man.toNat d.exp

mutual

/-- JS template-literal stringification `${v}` of a runtime value: strings
verbatim, numbers in decimal, `null`/booleans/`NaN` by name, arrays joined
with commas, plain objects as `[object Object]`. -/
def jvTemplate : JVal → List Char
  | JVal.jnull => "null".data
  | JVal.jnan => "NaN".data
  | JVal.jbool true => "true".data
  | JVal.jbool false => "false".data
  | JVal.jnum d => decToStr d
  | JVal.jstr s => s
  | JVal.jarr xs => jvTemplateList xs
  | JVal.jobj _ => "[object Object]".data

/-- `Array.prototype.toString`: elements joined with commas. -/
def jvTemplateList : List JVal → List Char
  | [] => []
  | [x] => jvTemplate x
  | x :: y :: xs => jvTemplate x ++ ',' :: jvTemplateList (y :: xs)

end

/-- The agent's pipeline state (`AgentState` of intentAgent.js lines 18-29).
`userInput` is kept as a raw JS value because the batch endpoint can hand
non-string inputs to the pipeline. -/
structure AgentSt where
  userInput : JVal
  messages : List (List Char)
  identifiedIntent : JVal
  confidence : JVal
  entities : JVal
  response : List Char
  reasoning : JVal
  error : Option (List Char)

/-- The `AgentState` constructor's initial values. -/
def initialState (v : JVal) : AgentSt :=
  { userInput := v
    messages := []
    identifiedIntent := JVal.jnull
    confidence := JVal.jnum (decMake 0 0)
    entities := JVal.jobj []
    response := []
    reasoning := JVal.jstr []
    error := none }

/-- The configured system prompt (`agentConfig.js`), recorded in the message
list by `processInput`; its text never influences the modelled outputs. -/
def systemPromptText : List Char :=
  ("You are a helpful AI assistant designed to identify and classify user intents.\nYour primary responsibilities are:\n1. Analyze user input to determine their underlying intent\n2. Classify intents into appropriate categories\n3. Extract relevant entities and parameters from user messages\n4. Provide clear and actionable responses based on identified intents\n\nAlways be clear, concise, and helpful in your responses.").data

/-- The `processInput` node (lines 64-75): record the system prompt and the
user input as the message history. Nothing in its `try` block can throw. -/
def processInput (st : AgentSt) : AgentSt :=
  { st with messages := [systemPromptText, jvTemplate st.userInput] }

/-- Prefix of the error text written by `identifyIntent`'s `catch`. -/
def identifyErrTag : List Char := "Error identifying intent: ".data

/-- The `TypeError` message thrown by `input.toLowerCase()` when the
fallback classifier receives a non-string (V8 wording; the `null` /
`undefined` variant differs in text only). -/
def lowerCaseTypeErr : List Char := "input.toLowerCase is not a function".data

/-- The `identifyIntent` node (lines 84-166). `r1` is the outcome of the
LLM call: a reply text, or a thrown error's message. On a reply, find the
first lazy `\x7b...\x7d` span; parse it after cleanup and adopt the fields with
`||` defaults; on parse failure run the two standalone regex extractions;
with no span at all run the static fallback classifier at confidence 0.6.
A throw — the LLM call, or `toLowerCase` on a non-string input when the
fallback is reached — lands in the `catch`: record the error, set intent
`"unknown"` and confidence 0 (entities are left as they were). -/
def identifyIntentNode (st : AgentSt) (r1 : Except (List Char) (List Char)) : AgentSt :=
  match r1 with
  | Except.error e =>
    { st with error := some (identifyErrTag ++ e)
              identifiedIntent := JVal.jstr ("unknown".data)
              confidence := JVal.jnum (decMake 0 0) }
  | Except.ok content =>
    match firstBraceSpan content with
    | some span =>
      match parseObjOpt (cleanupJson span) with
      | some fields =>
        { st with identifiedIntent := jsOr (jsLookup fields ("intent".data)) (JVal.jstr ("unknown".data))
                  confidence := jsOr (jsLookup fields ("confidence".data)) (JVal.jnum (decMake 5 (-1)))
                  entities := jsOr (jsLookup fields ("entities".data)) (JVal.jobj []) }
      | none =>
        { st with identifiedIntent :=
                    (match scanIntentCap content with
                     | some cap => JVal.jstr cap
                     | none => JVal.jstr ("unknown".data))
                  confidence :=
                    (match scanConfCap content with
                     | some cap => parseFloatCap cap
                     | none => JVal.jnum (decMake 5 (-1)))
                  entities := JVal.jobj [] }
    | none =>
      match st.userInput with
      | JVal.jstr s =>
        { st with identifiedIntent := JVal.jstr (classifyIntentFallback s)
                  confidence := JVal.jnum (decMake 6 (-1))
                  entities := JVal.jobj [] }
      | _ =>
        { st with error := some (identifyErrTag ++ lowerCaseTypeErr)
                  identifiedIntent := JVal.jstr ("unknown".data)
                  confidence := JVal.jnum (decMake 0 0) }

/-- Prefix of the error text written by `generateResponse`'s `catch`. -/
def generateErrTag : List Char := "Error generating response: ".data

/-- The apology substituted as the response by `generateResponse`'s `catch`
(line 289). -/
def apologyResponse : List Char :=
  ("I apologize, but I encountered an error processing your request.").data

/-- The reasoning object built when no brace span is found in the reasoning
reply (lines 255-259); `content` is the trimmed reply. -/
def reasoningNoJson (content : List Char) : JVal :=
  JVal.jobj
    [(("message_analysis".data),
      JVal.jobj [(("key_phrases".data), JVal.jarr []),
                 (("user_goal".data), JVal.jstr ("Could not parse reasoning".data))]),
     (("intent_justification".data),
      JVal.jobj [(("why_this_intent".data), JVal.jstr content),
                 (("confidence_factors".data), JVal.jarr [])]),
     (("response_strategy".data),
      JVal.jobj [(("approach".data), JVal.jstr ("Direct response".data)),
                 (("user_expectation".data), JVal.jstr ("Helpful answer".data))])]

/-- The reasoning object built when the brace span fails to parse
(lines 263-267), interpolating the current state. -/
def reasoningParseFail (st : AgentSt) : JVal :=
  JVal.jobj
    [(("message_analysis".data),
      JVal.jobj [(("key_phrases".data), JVal.jarr []),
                 (("user_goal".data), st.userInput)]),
     (("intent_justification".data),
      JVal.jobj [(("why_this_intent".data),
                  JVal.jstr (("Classified as ".data) ++ jvTemplate st.identifiedIntent)),
                 (("confidence_factors".data),
                  JVal.jarr [JVal.jstr (("Confidence: ".data) ++ jvTemplate st.confidence)])]),
     (("response_strategy".data),
      JVal.jobj [(("approach".data), JVal.jstr ("Direct response".data)),
                 (("user_expectation".data), JVal.jstr ("Helpful answer".data))])]

/-- The reasoning object built by `generateResponse`'s `catch`
(lines 290-294). -/
def reasoningOnError (e : List Char) : JVal :=
  JVal.jobj
    [(("message_analysis".data),
      JVal.jobj [(("key_phrases".data), JVal.jarr []),
                 (("user_goal".data), JVal.jstr ("Error occurred".data))]),
     (("intent_justification".data),
      JVal.jobj [(("why_this_intent".data), JVal.jstr e),
                 (("confidence_factors".data), JVal.jarr [])]),
     (("response_strategy".data),
      JVal.jobj [(("approach".data), JVal.jstr ("Error recovery".data)),
                 (("user_expectation".data), JVal.jstr ("Error message".data))])]

/-- The reasoning value computed from a successful reasoning reply
(lines 242-268): trim, find the greedy `\x7b...\x7d` span, clean it up
(control characters, trailing commas, trim) and parse; adopt the parsed
value, or the parse-failure object on a throw, or the no-JSON object when
there is no span. -/
def reasoningResult (st : AgentSt) (trimmed : List Char) : JVal :=
  match greedyBraceSpan trimmed with
  | some span =>
    match jsonParse (cleanupReasoning span) with
    | some v => v
    | none => reasoningParseFail st
  | none => reasoningNoJson trimmed

/-- `generateResponse`'s `catch` (lines 287-296): record the error text,
substitute the apology response, overwrite the reasoning with the
error-recovery object. -/
def generateCatch (st : AgentSt) (e : List Char) : AgentSt :=
  { st with error := some (generateErrTag ++ e)
            response := apologyResponse
            reasoning := reasoningOnError e }

/-- The `generateResponse` node (lines 208-297). `r2` is the reasoning
LLM call's outcome, `r3` the response call's. The outer `try` spans both
calls, so a throw from either one lands in the same `catch` — even after
the reasoning was already computed. On success the trimmed response reply
is adopted verbatim. -/
def generateResponseNode (st : AgentSt) (r2 r3 : Except (List Char) (List Char)) : AgentSt :=
  match r2 with
  | Except.error e => generateCatch st e
  | Except.ok c2 =>
    let st2 := { st with reasoning := reasoningResult st (trimJs c2) }
    match r3 with
    | Except.error e => generateCatch st2 e
    | Except.ok c3 => { st2 with response := trimJs c3 }

/-- The outcomes of the (up to) three LLM invocations a single
`processMessage` run can make, in pipeline order. -/
structure LlmRuns where
  classify : Except (List Char) (List Char)
  reasoning : Except (List Char) (List Char)
  respond : Except (List Char) (List Char)

/-- The result object `processMessage` returns (lines 345-352). -/
structure ResultObj where
  intent : JVal
  confidence : JVal
  entities : JVal
  response : List Char
  reasoning : JVal
  error : Option (List Char)

/-- `processMessage` (lines 339-353) for an arbitrary JS-valued input: run
the three nodes in the graph's fixed linear order on a fresh state and
project the result fields. -/
def procVal (v : JVal) (runs : LlmRuns) : ResultObj :=
  let s1 := processInput (initialState v)
  let s2 := identifyIntentNode s1 runs.classify
  let s3 := generateResponseNode s2 runs.reasoning runs.respond
  { intent := s3.identifiedIntent
    confidence := s3.confidence
    entities := s3.entities
    response := s3.response
    reasoning := s3.reasoning
    error := s3.error }

/-- `processMessage` on a string input (the only way the single-message
endpoint can call it). -/
def processMessageRun (input : List Char) (runs : LlmRuns) : ResultObj :=
  procVal (JVal.jstr input) runs

/-- The intent-classification stage alone, as reached from a string input:
the state after `processInput` and `identifyIntent` with classification
outcome `r1`. -/
def classifyStage (input : List Char) (r1 : Except (List Char) (List Char)) : AgentSt :=
  identifyIntentNode (processInput (initialState (JVal.jstr input))) r1

/-- An HTTP error response sent by a handler (status plus the JSON body's
`error` and `message` fields). -/
structure ErrResp where
  status : Nat
  errorLabel : List Char
  message : List Char

/-- The 400 body for a missing/non-string/blank message
(server.js lines 63-68). -/
def invalidInputErr : ErrResp :=
  { status := 400
    errorLabel := "Invalid input".data
    message := "Message field is required and must be a non-empty string".data }

/-- The 400 body for an over-length message (lines 71-76). -/
def tooLongErr : ErrResp :=
  { status := 400
    errorLabel := "Message too long".data
    message := "Message must be 1000 characters or less".data }

/-- The `/api/classify` handler (server.js lines 58-109) on the request
body's `message` value (`none` = the field is absent). The guard
`!message || typeof message !== 'string' || message.trim().length === 0`
rejects every non-string (truthy ones by the `typeof` test, falsy ones by
`!message`) and every blank string, so only a validated string ever
reaches `agent.processMessage`. The success branch omits the response's
timing/timestamp metadata, which has no pure counterpart. -/
def classifyHandler (m : Option JVal) (runs : LlmRuns) : Except ErrResp ResultObj :=
  match m with
  | some (JVal.jstr s) =>
    if (trimJs s).isEmpty then Except.error invalidInputErr
    else if s.length > 1000 then Except.error tooLongErr
    else Except.ok (processMessageRun s runs)
  | _ => Except.error invalidInputErr

/-- The 400 body for a missing/empty batch (lines 139-144). -/
def batchInvalidErr : ErrResp :=
  { status := 400
    errorLabel := "Invalid input".data
    message := "Messages field is required and must be a non-empty array".data }

/-- The 400 body for an oversized batch (lines 146-151). -/
def batchTooManyErr : ErrResp :=
  { status := 400
    errorLabel := "Too many messages".data
    message := "Maximum 10 messages per batch request".data }

/-- The `/api/classify-batch` handler (server.js lines 135-185) on the
`messages` array, each element paired with the LLM outcomes of its own
pipeline run. Only the array itself is validated (nonempty, at most 10);
every element — string or not — is handed to `agent.processMessage`
unchecked. The per-element `catch` (lines 160-167) is unreachable here
because the modelled `processMessage` is total: every throw inside the
pipeline is caught by the node that raised it. -/
def classifyBatchHandler (items : List (JVal × LlmRuns)) : Except ErrResp (List ResultObj) :=
  if items.isEmpty then Except.error batchInvalidErr
  else if items.length > 10 then Except.error batchTooManyErr
  else Except.ok (items.map (fun it => procVal it.1 it.2))

/-- The single-endpoint rejection conditions exactly as the claim lists
them: the message is missing, not a string, blank after trimming, or longer
than 1000 characters. -/
def claimInvalidMsg (m : Option JVal) : Prop :=
  m = none ∨ (∀ s, m ≠ some (JVal.jstr s)) ∨
  (∃ s, m = some (JVal.jstr s) ∧ (trimJs s).isEmpty = true) ∨
  (∃ s, m = some (JVal.jstr s) ∧ s.length > 1000)

/-- A confidence value in the closed unit interval. -/
def confInRange (v : JVal) : Prop :=
  ∃ d, v = JVal.jnum d ∧ 0 ≤ decToRat d ∧ decToRat d ≤ 1

/-- The confidence value was taken from the LLM reply itself, through either
recovery route of `identifyIntent`: a truthy `confidence` field of the
successfully parsed span, or `parseFloat` of the standalone regex capture
when the span failed to parse. -/
def llmSuppliedConf (r1 : Except (List Char) (List Char)) (v : JVal) : Prop :=
  ∃ content, r1 = Except.ok content ∧
    ((∃ span fields w, firstBraceSpan content = some span ∧
        parseObjOpt (cleanupJson span) = some fields ∧
        jsLookup fields ("confidence".data) = some w ∧ jvFalsy w = false ∧ v = w) ∨
     (∃ span cap, firstBraceSpan content = some span ∧
        parseObjOpt (cleanupJson span) = none ∧
        scanConfCap content = some cap ∧ v = parseFloatCap cap))

/-- A classification reply that is, in its entirety, a syntactically valid
JSON object with `intent`, `confidence` and `entities` keys and a nonempty
entity map — the shape the classification prompt asks the model for. -/
def c1Reply : List Char :=
  ("\x7b\"intent\":\"greeting\",\"confidence\":0.9,\"entities\":\x7b\"name\":\"Bob\"\x7d\x7d").data

/-- A reply with no brace span at all. -/
def c2Reply : List Char := ("I think this is a greeting.").data

/-- A reply whose lazy brace span is malformed (it stops at the first
closing brace) while the standalone regexes still find values further on. -/
def c3Reply : List Char :=
  ("\x7b\"intent\": oops\x7d and \"intent\": \"abc\", \"confidence\": 0.7").data

/-- A reply whose brace span is a valid flat JSON object that explicitly
sets `confidence` to the falsy number 0. -/
def c5Reply : List Char := ("\x7b\"intent\":\"x\",\"confidence\":0\x7d").data

/-- A valid flat reply with all three keys truthy, for exercising the
parse-success path. -/
def c5OkReply : List Char :=
  ("reply: \x7b\"intent\":\"question\",\"confidence\":0.75,\"entities\":\"loc\"\x7d done").data

/-- The brace span of `c5OkReply`. -/
def c5OkSpan : List Char :=
  ("\x7b\"intent\":\"question\",\"confidence\":0.75,\"entities\":\"loc\"\x7d").data

/-- The parsed fields of `c5OkSpan`. -/
def c5OkFields : List (List Char × JVal) :=
  [(("intent".data), JVal.jstr ("question".data)),
   (("confidence".data), JVal.jnum (decMake 75 (-2))),
   (("entities".data), JVal.jstr ("loc".data))]

/-- A reply whose valid span carries an out-of-range confidence. -/
def c8Reply : List Char := ("\x7b\"intent\":\"a\",\"confidence\":5,\"entities\":\"e\"\x7d").data

/-- LLM outcomes with all three calls succeeding. -/
def allOkRuns : LlmRuns :=
  { classify := Except.ok c2Reply
    reasoning := Except.ok ("some reasoning".data)
    respond := Except.ok ("Hello!".data) }

/-- LLM outcomes whose classification call throws. -/
def classifyErrRuns : LlmRuns :=
  { classify := Except.error ("llm down".data)
    reasoning := Except.ok ("r".data)
    respond := Except.ok ("ok".data) }

/-- LLM outcomes whose response call throws after a successful reasoning
call. -/
def respondErrRuns : LlmRuns :=
  { classify := Except.ok c2Reply
    reasoning := Except.ok ("r".data)
    respond := Except.error ("net down".data) }

/-- A two-message batch whose second entry's classification call throws. -/
def c6Items : List (JVal × LlmRuns) :=
  [(JVal.jstr ("hello".data), allOkRuns), (JVal.jstr ("x".data), classifyErrRuns)]

/-- A one-message batch whose single entry is the empty string — an input
the single-message endpoint rejects. -/
def c9Items : List (JVal × LlmRuns) :=
  [(JVal.jstr [], allOkRuns)]

/-- C10: the static fallback classifier of the main pipeline
(`src/Working/intentAgent.js`) and the one of the variant pipeline
(`src/unnamed/part_008`) are extensionally equal: every input string is
given the same intent label by both. -/
theorem c10_fallback_classifiers_agree :
    ∀ s, classifyIntentFallback s = classifyIntentFallbackVariant s :=
  fun _ => rfl

/-- C2: when the classification reply contains no brace span at all,
`identifyIntent` labels the input with exactly the static regex fallback's
result at confidence 0.6 and empty entities; and that fallback is the
first-match-wins evaluation of the greeting / question / command / goodbye /
clarification / information-request patterns in that fixed order, with
`"unknown"` when none match. -/
theorem c2_no_span_uses_fallback :
    (∀ (input content : List Char), firstBraceSpan content = none →
      (classifyStage input (Except.ok content)).identifiedIntent
          = JVal.jstr (classifyIntentFallback input)
        ∧ (classifyStage input (Except.ok content)).confidence = JVal.jnum (decMake 6 (-1))
        ∧ (classifyStage input (Except.ok content)).entities = JVal.jobj [])
    ∧ ∀ s, classifyIntentFallback s = fallbackSpecOrder s := by
  constructor
  · intro input content h
    simp only [classifyStage, identifyIntentNode, h]
    exact ⟨rfl, rfl, rfl⟩
  · intro s
    cases h1 : greetingTest (lowerStr s) <;> cases h2 : questionTest (lowerStr s) <;>
      cases h3 : commandTest (lowerStr s) <;> cases h4 : goodbyeTest (lowerStr s) <;>
      cases h5 : clarificationTest (lowerStr s) <;> cases h6 : infoRequestTest (lowerStr s) <;>
      simp [classifyIntentFallback, fallbackSpecOrder, fallbackRules, List.find?,
        h1, h2, h3, h4, h5, h6]

/-- Witness for C2 at a concrete input and reply: `"hello"` with a braceless
reply is labelled `greeting` at confidence 0.6. -/
theorem c2_no_span_uses_fallback_witness :
    (classifyStage ("hello".data) (Except.ok c2Reply)).identifiedIntent
        = JVal.jstr ("greeting".data)
      ∧ (classifyStage ("hello".data) (Except.ok c2Reply)).confidence = JVal.jnum (decMake 6 (-1)) := by
  have h := c2_no_span_uses_fallback.1 ("hello".data) c2Reply rfl
  exact ⟨h.1, h.2.1⟩

/-- C3: when the reply has a brace span but the cleaned span still fails
strict JSON parsing, `identifyIntent` recovers the intent from the first
capture of `/"intent"\s*:\s*"([^"]+)"/` over the whole reply (defaulting to
`"unknown"`), the confidence from `parseFloat` of the first capture of
`/"confidence"\s*:\s*([\d.]+)/` (defaulting to 0.5), and empty entities. -/
theorem c3_malformed_span_regex_recovery :
    ∀ (input content span : List Char),
      firstBraceSpan content = some span →
      parseObjOpt (cleanupJson span) = none →
      (classifyStage input (Except.ok content)).identifiedIntent
          = (match scanIntentCap content with
             | some cap => JVal.jstr cap
             | none => JVal.jstr ("unknown".data))
        ∧ (classifyStage input (Except.ok content)).confidence
            = (match scanConfCap content with
               | some cap => parseFloatCap cap
               | none => JVal.jnum (decMake 5 (-1)))
        ∧ (classifyStage input (Except.ok content)).entities = JVal.jobj [] := by
  intro input content span h1 h2
  simp only [classifyStage, identifyIntentNode, h1, h2]
  simp

/-- Witness for C3: a reply whose span `\x7b"intent": oops\x7d` is malformed but
whose text later contains `"intent": "abc"` and `"confidence": 0.7`. -/
theorem c3_malformed_span_regex_recovery_witness :
    (classifyStage ("hi".data) (Except.ok c3Reply)).identifiedIntent
        = JVal.jstr ("abc".data)
      ∧ (classifyStage ("hi".data) (Except.ok c3Reply)).confidence
          = JVal.jnum (decMake 7 (-1)) := by
  have h := c3_malformed_span_regex_recovery ("hi".data) c3Reply
    (("\x7b\"intent\": oops\x7d").data) rfl rfl
  refine ⟨h.1.trans ?_, h.2.1.trans ?_⟩ <;> rfl

theorem decToRat_zero : decToRat (decMake 0 0) = 0 := by
  have h : decMake 0 0 = { man := 0, exp := 0 } := by decide
  rw [h]
  simp [decToRat]

theorem decToRat_half : decToRat (decMake 5 (-1)) = 1 / 2 := by
  have h : decMake 5 (-1) = { man := 5, exp := -1 } := by decide
  rw [h]
  simp [decToRat]
  norm_num

theorem decToRat_sixTenths : decToRat (decMake 6 (-1)) = 3 / 5 := by
  have h : decMake 6 (-1) = { man := 6, exp := -1 } := by decide
  rw [h]
  simp [decToRat]
  norm_num

theorem handlerRejectsInvalid :
    ∀ (v : JVal) (runs : LlmRuns), claimInvalidMsg (some v) →
      (∃ er, classifyHandler (some v) runs = Except.error er ∧ er.status = 400)
      ∧ ∀ runs2, classifyHandler (some v) runs2 = classifyHandler (some v) runs := by
  intro v runs hm
  cases v with
  | jstr s =>
    rcases hm with h | h | ⟨s2, hs2, ht⟩ | ⟨s2, hs2, hl⟩
    · exact absurd h (by simp)
    · exact absurd rfl (h s)
    · obtain rfl : s = s2 := JVal.jstr.inj (Option.some.inj hs2)
      refine ⟨⟨invalidInputErr, ?_, rfl⟩, fun runs2 => ?_⟩ <;> simp [classifyHandler, ht]
    · obtain rfl : s = s2 := JVal.jstr.inj (Option.some.inj hs2)
      cases hte : (trimJs s).isEmpty with
      | true =>
        refine ⟨⟨invalidInputErr, ?_, rfl⟩, fun runs2 => ?_⟩ <;> simp [classifyHandler, hte]
      | false =>
        refine ⟨⟨tooLongErr, ?_, rfl⟩, fun runs2 => ?_⟩ <;> simp [classifyHandler, hte, hl]
  | jnull => exact ⟨⟨invalidInputErr, rfl, rfl⟩, fun _ => rfl⟩
  | jnan => exact ⟨⟨invalidInputErr, rfl, rfl⟩, fun _ => rfl⟩
  | jbool b => exact ⟨⟨invalidInputErr, rfl, rfl⟩, fun _ => rfl⟩
  | jnum d => exact ⟨⟨invalidInputErr, rfl, rfl⟩, fun _ => rfl⟩
  | jarr xs => exact ⟨⟨invalidInputErr, rfl, rfl⟩, fun _ => rfl⟩
  | jobj fs => exact ⟨⟨invalidInputErr, rfl, rfl⟩, fun _ => rfl⟩

/-- C7: a classification request whose message is missing, not a string,
blank after trimming, or longer than 1000 characters is rejected with a
400-status error before the pipeline runs — the handler's outcome is the
same for every possible LLM behavior, so `agent.processMessage` is never
consulted. -/
theorem c7_invalid_message_rejected_before_pipeline :
    ∀ (m : Option JVal) (runs : LlmRuns), claimInvalidMsg m →
      (∃ er, classifyHandler m runs = Except.error er ∧ er.status = 400)
      ∧ ∀ runs2, classifyHandler m runs2 = classifyHandler m runs := by
  intro m runs hm
  cases m with
  | none => exact ⟨⟨invalidInputErr, rfl, rfl⟩, fun _ => rfl⟩
  | some v => exact handlerRejectsInvalid v runs hm

/-- Witness for C7 at concrete invalid messages: a blank string and an
absent field are both rejected with status 400. -/
theorem c7_invalid_message_rejected_witness :
    (∃ er, classifyHandler (some (JVal.jstr ("   ".data))) allOkRuns = Except.error er
        ∧ er.status = 400)
      ∧ ∃ er, classifyHandler none allOkRuns = Except.error er ∧ er.status = 400 := by
  refine ⟨?_, ?_⟩
  · exact (c7_invalid_message_rejected_before_pipeline (some (JVal.jstr ("   ".data))) allOkRuns
      (Or.inr (Or.inr (Or.inl ⟨("   ".data), rfl, rfl⟩)))).1
  · exact (c7_invalid_message_rejected_before_pipeline none allOkRuns (Or.inl rfl)).1

/-- C1 (the code against the claim): `c1Reply` is, in its entirety, a
syntactically valid JSON object with `intent`, `confidence` and `entities`
keys, yet the pipeline's entities output is the empty map rather than the
parsed `\x7b name: Bob \x7d` — the lazy brace match stops at the first closing
brace (the inner map's), the truncated span (ending after the inner `Bob` object's closing brace,
before the outer one) fails strict parsing, and the
regex recovery path discards entities. Intent and confidence are still
recovered by the standalone regexes. -/
theorem c1_valid_json_entities_dropped :
    jsonParse c1Reply = some (JVal.jobj
        [(("intent".data), JVal.jstr ("greeting".data)),
         (("confidence".data), JVal.jnum (decMake 9 (-1))),
         (("entities".data), JVal.jobj [(("name".data), JVal.jstr ("Bob".data))])])
      ∧ firstBraceSpan c1Reply
          = some (("\x7b\"intent\":\"greeting\",\"confidence\":0.9,\"entities\":\x7b\"name\":\"Bob\"\x7d").data)
      ∧ parseObjOpt (cleanupJson
          (("\x7b\"intent\":\"greeting\",\"confidence\":0.9,\"entities\":\x7b\"name\":\"Bob\"\x7d").data)) = none
      ∧ (classifyStage ("Hello there!".data) (Except.ok c1Reply)).identifiedIntent
          = JVal.jstr ("greeting".data)
      ∧ (classifyStage ("Hello there!".data) (Except.ok c1Reply)).confidence
          = JVal.jnum (decMake 9 (-1))
      ∧ (classifyStage ("Hello there!".data) (Except.ok c1Reply)).entities = JVal.jobj [] :=
  ⟨rfl, rfl, rfl, rfl, rfl, rfl⟩

/-- C4: no exception escapes `identifyIntent` or `generateResponse`. A
thrown classification call is caught there: intent `"unknown"`, confidence
0, the error text recorded (and still visible in the final result whenever
no later stage overwrites the error field); a throw from either LLM call
inside `generateResponse` is caught there: the apology string replaces the
response and the error text is recorded. `processMessage` is a total
function into `ResultObj`, so every run returns a result with all six
fields. -/
theorem c4_exceptions_contained :
    ∀ (input : List Char) (runs : LlmRuns),
      (∀ e, runs.classify = Except.error e →
        (processMessageRun input runs).intent = JVal.jstr ("unknown".data)
          ∧ (processMessageRun input runs).confidence = JVal.jnum (decMake 0 0)
          ∧ ∀ c2 c3, runs.reasoning = Except.ok c2 → runs.respond = Except.ok c3 →
              (processMessageRun input runs).error = some (identifyErrTag ++ e))
      ∧ (∀ e, runs.reasoning = Except.error e →
          (processMessageRun input runs).response = apologyResponse
            ∧ (processMessageRun input runs).error = some (generateErrTag ++ e))
      ∧ (∀ c2 e, runs.reasoning = Except.ok c2 → runs.respond = Except.error e →
          (processMessageRun input runs).response = apologyResponse
            ∧ (processMessageRun input runs).error = some (generateErrTag ++ e)) := by
  intro input runs
  obtain ⟨r1, r2, r3⟩ := runs
  refine ⟨?_, ?_, ?_⟩
  · rintro e rfl
    refine ⟨?_, ?_, ?_⟩
    · cases r2 <;> cases r3 <;>
        simp [processMessageRun, procVal, identifyIntentNode, generateResponseNode,
          generateCatch, processInput, initialState]
    · cases r2 <;> cases r3 <;>
        simp [processMessageRun, procVal, identifyIntentNode, generateResponseNode,
          generateCatch, processInput, initialState]
    · rintro c2 c3 rfl rfl
      simp [processMessageRun, procVal, identifyIntentNode, generateResponseNode,
        processInput, initialState]
  · rintro e rfl
    cases r1 <;>
      constructor <;>
        simp [processMessageRun, procVal, identifyIntentNode, generateResponseNode,
          generateCatch, processInput, initialState]
  · rintro c2 e rfl rfl
    cases r1 <;>
      constructor <;>
        simp [processMessageRun, procVal, identifyIntentNode, generateResponseNode,
          generateCatch, processInput, initialState]

/-- Witness for C4: with the classification call throwing `llm down` the
result is `unknown` at confidence 0 with the error recorded; with the
response call throwing `net down` the apology is substituted. -/
theorem c4_exceptions_contained_witness :
    (processMessageRun ("hi".data) classifyErrRuns).intent = JVal.jstr ("unknown".data)
      ∧ (processMessageRun ("hi".data) classifyErrRuns).confidence = JVal.jnum (decMake 0 0)
      ∧ (processMessageRun ("hi".data) classifyErrRuns).error
          = some (identifyErrTag ++ ("llm down".data))
      ∧ (processMessageRun ("hi".data) respondErrRuns).response = apologyResponse
      ∧ (processMessageRun ("hi".data) respondErrRuns).error
          = some (generateErrTag ++ ("net down".data)) := by
  have h1 := c4_exceptions_contained ("hi".data) classifyErrRuns
  have h2 := c4_exceptions_contained ("hi".data) respondErrRuns
  have ha := h1.1 ("llm down".data) rfl
  have hb := h2.2.2 ("r".data) ("net down".data) rfl rfl
  exact ⟨ha.1, ha.2.1, ha.2.2 ("r".data) ("ok".data) rfl rfl, hb.1, hb.2⟩

/-- C5 is refuted at a concrete input: `c5Reply`'s span parses successfully
and explicitly sets `confidence` to 0, yet the output confidence is the
default 0.5 — the `||` defaults fire on every falsy value, not only on
missing keys, so an explicitly present field is not always kept. -/
theorem c5_explicit_falsy_field_not_kept :
    firstBraceSpan c5Reply = some c5Reply
      ∧ parseObjOpt (cleanupJson c5Reply)
          = some [(("intent".data), JVal.jstr ("x".data)),
                  (("confidence".data), JVal.jnum (decMake 0 0))]
      ∧ (classifyStage ("hi".data) (Except.ok c5Reply)).confidence
          = JVal.jnum (decMake 5 (-1))
      ∧ (classifyStage ("hi".data) (Except.ok c5Reply)).confidence
          ≠ JVal.jnum (decMake 0 0) := by
  refine ⟨rfl, rfl, rfl, ?_⟩
  intro h
  rw [show (classifyStage ("hi".data) (Except.ok c5Reply)).confidence
      = JVal.jnum (decMake 5 (-1)) from rfl] at h
  injection h with h2
  exact absurd h2 (by decide)

/-- C5 amended: on a successfully parsed span the fields are adopted through
`||` defaulting — a missing key or a falsy value (null, 0, empty string,
false, NaN) falls back to `"unknown"` / 0.5 / the empty map respectively,
while an explicitly present truthy value is kept. -/
theorem c5_parse_success_field_defaults :
    ∀ (input content span : List Char) (fields : List (List Char × JVal)),
      firstBraceSpan content = some span →
      parseObjOpt (cleanupJson span) = some fields →
      ((classifyStage input (Except.ok content)).identifiedIntent
          = jsOr (jsLookup fields ("intent".data)) (JVal.jstr ("unknown".data))
        ∧ (classifyStage input (Except.ok content)).confidence
            = jsOr (jsLookup fields ("confidence".data)) (JVal.jnum (decMake 5 (-1)))
        ∧ (classifyStage input (Except.ok content)).entities
            = jsOr (jsLookup fields ("entities".data)) (JVal.jobj []))
      ∧ (∀ v, jsLookup fields ("intent".data) = some v → jvFalsy v = false →
          (classifyStage input (Except.ok content)).identifiedIntent = v)
      ∧ (∀ v, jsLookup fields ("confidence".data) = some v → jvFalsy v = false →
          (classifyStage input (Except.ok content)).confidence = v)
      ∧ (∀ v, jsLookup fields ("entities".data) = some v → jvFalsy v = false →
          (classifyStage input (Except.ok content)).entities = v)
      ∧ (jsLookup fields ("intent".data) = none →
          (classifyStage input (Except.ok content)).identifiedIntent
            = JVal.jstr ("unknown".data))
      ∧ (jsLookup fields ("confidence".data) = none →
          (classifyStage input (Except.ok content)).confidence
            = JVal.jnum (decMake 5 (-1)))
      ∧ (jsLookup fields ("entities".data) = none →
          (classifyStage input (Except.ok content)).entities = JVal.jobj []) := by
  intro input content span fields h1 h2
  have hbase : (classifyStage input (Except.ok content)).identifiedIntent
        = jsOr (jsLookup fields ("intent".data)) (JVal.jstr ("unknown".data))
      ∧ (classifyStage input (Except.ok content)).confidence
          = jsOr (jsLookup fields ("confidence".data)) (JVal.jnum (decMake 5 (-1)))
      ∧ (classifyStage input (Except.ok content)).entities
          = jsOr (jsLookup fields ("entities".data)) (JVal.jobj []) := by
    simp only [classifyStage, identifyIntentNode, h1, h2]
    simp
  refine ⟨hbase, ?_, ?_, ?_, ?_, ?_, ?_⟩
  · intro v hv hf
    rw [hbase.1, hv]
    simp [jsOr, hf]
  · intro v hv hf
    rw [hbase.2.1, hv]
    simp [jsOr, hf]
  · intro v hv hf
    rw [hbase.2.2, hv]
    simp [jsOr, hf]
  · intro hv
    rw [hbase.1, hv]
    simp [jsOr]
  · intro hv
    rw [hbase.2.1, hv]
    simp [jsOr]
  · intro hv
    rw [hbase.2.2, hv]
    simp [jsOr]

/-- Witness for the amended C5: a flat reply whose span parses with all
three keys truthy keeps each parsed value. -/
theorem c5_parse_success_field_defaults_witness :
    (classifyStage ("hi".data) (Except.ok c5OkReply)).identifiedIntent
        = JVal.jstr ("question".data)
      ∧ (classifyStage ("hi".data) (Except.ok c5OkReply)).confidence
          = JVal.jnum (decMake 75 (-2))
      ∧ (classifyStage ("hi".data) (Except.ok c5OkReply)).entities
          = JVal.jstr ("loc".data) := by
  have h := c5_parse_success_field_defaults ("hi".data) c5OkReply c5OkSpan c5OkFields rfl rfl
  exact ⟨h.2.1 (JVal.jstr ("question".data)) rfl rfl,
    h.2.2.1 (JVal.jnum (decMake 75 (-2))) rfl rfl,
    h.2.2.2.1 (JVal.jstr ("loc".data)) rfl rfl⟩

/-- C6: an accepted batch (1 to 10 messages) yields exactly one result per
message in input order; each position's result is the same
`agent.processMessage` run the single-message endpoint performs on that
message (so it depends only on that entry); a classification throw in one
entry degrades only that entry's result to `unknown` / confidence 0. -/
theorem c6_batch_order_and_isolation :
    ∀ (items : List (JVal × LlmRuns)),
      1 ≤ items.length → items.length ≤ 10 →
      (classifyBatchHandler items = Except.ok (items.map (fun it => procVal it.1 it.2)))
      ∧ (items.map (fun it => procVal it.1 it.2)).length = items.length
      ∧ (∀ i : Nat, (items.map (fun it => procVal it.1 it.2))[i]?
            = (items[i]?).map (fun it => procVal it.1 it.2))
      ∧ (∀ (i : Nat) it e, items[i]? = some it → it.2.classify = Except.error e →
          (procVal it.1 it.2).intent = JVal.jstr ("unknown".data)
            ∧ (procVal it.1 it.2).confidence = JVal.jnum (decMake 0 0))
      ∧ (∀ (s : List Char) (runs : LlmRuns),
          (trimJs s).isEmpty = false → s.length ≤ 1000 →
          classifyHandler (some (JVal.jstr s)) runs
            = Except.ok (processMessageRun s runs)) := by
  intro items h1 h10
  have hne : items.isEmpty = false := by
    cases items with
    | nil => simp at h1
    | cons a t => rfl
  refine ⟨?_, List.length_map _ _, ?_, ?_, ?_⟩
  · simp only [classifyBatchHandler, hne, Bool.false_eq_true, if_false]
    rw [if_neg (by omega)]
  · intro i
    exact List.getElem?_map _ _ _
  · rintro i ⟨v, r1, r2, r3⟩ e hget he
    simp only at he
    subst he
    constructor <;>
      cases r2 <;> cases r3 <;>
        simp [procVal, identifyIntentNode, generateResponseNode, generateCatch,
          processInput, initialState]
  · intro s runs hts hlen
    simp only [classifyHandler, hts, Bool.false_eq_true, if_false]
    rw [if_neg (by omega)]

/-- Witness for C6 at a concrete two-message batch whose second entry's
classification call throws: the batch is accepted, both results are
returned in order, and the failing entry degrades to `unknown` without
affecting the first entry's result. -/
theorem c6_batch_order_and_isolation_witness :
    classifyBatchHandler c6Items = Except.ok (c6Items.map (fun it => procVal it.1 it.2))
      ∧ (c6Items.map (fun it => procVal it.1 it.2)).length = 2
      ∧ (procVal (JVal.jstr ("x".data)) classifyErrRuns).intent = JVal.jstr ("unknown".data)
      ∧ (procVal (JVal.jstr ("hello".data)) allOkRuns).intent
          = JVal.jstr ("greeting".data) := by
  have h := c6_batch_order_and_isolation c6Items (by decide) (by decide)
  refine ⟨h.1, h.2.1.trans rfl, ?_, rfl⟩
  exact (h.2.2.2.1 1 (JVal.jstr ("x".data), classifyErrRuns) ("llm down".data) rfl rfl).1

/-- C8 is refuted at a concrete input: a reply whose span parses with
`confidence: 5` puts 5 — outside `[0,1]` — straight into the result. -/
theorem c8_confidence_exceeds_unit_interval :
    (classifyStage ("hi".data) (Except.ok c8Reply)).confidence = JVal.jnum (decMake 5 0)
      ∧ ¬ confInRange ((classifyStage ("hi".data) (Except.ok c8Reply)).confidence) := by
  refine ⟨rfl, ?_⟩
  rintro ⟨d, hd, h0, hle⟩
  rw [show (classifyStage ("hi".data) (Except.ok c8Reply)).confidence
      = JVal.jnum (decMake 5 0) from rfl] at hd
  injection hd with hd2
  rw [← hd2, show decMake 5 0 = { man := 5, exp := 0 } from by decide] at hle
  simp [decToRat] at hle

/-- C8 amended: the confidence is in `[0,1]` on every path that does not
adopt a number from the LLM reply (the fallback's 0.6, the defaults' 0.5,
the catch's 0); on the two recovery paths the reply-supplied number is
passed through unchecked, so only those can leave the interval. -/
theorem c8_confidence_range_unless_llm_supplied :
    ∀ (input : List Char) (r1 : Except (List Char) (List Char)),
      confInRange (classifyStage input r1).confidence
        ∨ llmSuppliedConf r1 (classifyStage input r1).confidence := by
  intro input r1
  cases r1 with
  | error e =>
    left
    refine ⟨decMake 0 0, rfl, ?_, ?_⟩
    · rw [decToRat_zero]
    · rw [decToRat_zero]; norm_num
  | ok content =>
    cases hspan : firstBraceSpan content with
    | none =>
      left
      refine ⟨decMake 6 (-1), ?_, ?_, ?_⟩
      · simp only [classifyStage, identifyIntentNode, hspan, processInput, initialState]
      · rw [decToRat_sixTenths]; norm_num
      · rw [decToRat_sixTenths]; norm_num
    | some span =>
      cases hp : parseObjOpt (cleanupJson span) with
      | some fields =>
        cases hl : jsLookup fields ("confidence".data) with
        | none =>
          left
          refine ⟨decMake 5 (-1), ?_, ?_, ?_⟩
          · simp only [classifyStage, identifyIntentNode, hspan, hp, hl]
            simp [jsOr]
          · rw [decToRat_half]; norm_num
          · rw [decToRat_half]; norm_num
        | some w =>
          cases hf : jvFalsy w with
          | true =>
            left
            refine ⟨decMake 5 (-1), ?_, ?_, ?_⟩
            · simp only [classifyStage, identifyIntentNode, hspan, hp, hl]
              simp [jsOr, hf]
            · rw [decToRat_half]; norm_num
            · rw [decToRat_half]; norm_num
          | false =>
            right
            refine ⟨content, rfl, Or.inl ⟨span, fields, w, hspan, hp, hl, hf, ?_⟩⟩
            simp only [classifyStage, identifyIntentNode, hspan, hp, hl]
            simp [jsOr, hf]
      | none =>
        cases hc : scanConfCap content with
        | none =>
          left
          refine ⟨decMake 5 (-1), ?_, ?_, ?_⟩
          · simp only [classifyStage, identifyIntentNode, hspan, hp, hc]
          · rw [decToRat_half]; norm_num
          · rw [decToRat_half]; norm_num
        | some cap =>
          right
          refine ⟨content, rfl, Or.inr ⟨span, cap, hspan, hp, hc, ?_⟩⟩
          simp only [classifyStage, identifyIntentNode, hspan, hp, hc]

/-- C9: the batch endpoint does no per-message validation — any accepted
batch has every entry handed to `agent.processMessage` as-is and a result
produced for its position, including entries (empty, non-string, or
over-length) that the single-message endpoint would reject with a 400. -/
theorem c9_batch_entries_not_validated :
    ∀ (items : List (JVal × LlmRuns)),
      1 ≤ items.length → items.length ≤ 10 →
      (classifyBatchHandler items = Except.ok (items.map (fun it => procVal it.1 it.2)))
      ∧ (∀ (i : Nat) it, items[i]? = some it →
          (classifyBatchHandler items).toOption.bind (fun rs => rs[i]?)
            = some (procVal it.1 it.2))
      ∧ (∀ (v : JVal) (runs : LlmRuns), claimInvalidMsg (some v) →
          ∃ er, classifyHandler (some v) runs = Except.error er ∧ er.status = 400) := by
  intro items h1 h10
  have hne : items.isEmpty = false := by
    cases items with
    | nil => simp at h1
    | cons a t => rfl
  have hok : classifyBatchHandler items
      = Except.ok (items.map (fun it => procVal it.1 it.2)) := by
    simp only [classifyBatchHandler, hne, Bool.false_eq_true, if_false]
    rw [if_neg (by omega)]
  refine ⟨hok, ?_, ?_⟩
  · intro i it hit
    rw [hok]
    simp [Except.toOption, List.getElem?_map, hit]
  · intro v runs hv
    exact (handlerRejectsInvalid v runs hv).1

/-- Witness for C9: a batch whose only entry is the empty string is
accepted and processed, while the same message on the single endpoint is
rejected with a 400. -/
theorem c9_batch_entries_not_validated_witness :
    classifyBatchHandler c9Items = Except.ok (c9Items.map (fun it => procVal it.1 it.2))
      ∧ ∃ er, classifyHandler (some (JVal.jstr [])) allOkRuns = Except.error er
          ∧ er.status = 400 := by
  have h := c9_batch_entries_not_validated c9Items (by decide) (by decide)
  exact ⟨h.1, h.2.2 (JVal.jstr []) allOkRuns (Or.inr (Or.inr (Or.inl ⟨[], rfl, rfl⟩)))⟩
